import Mathlib

/-!
Verification development for the filter-expression engine and
query-composition logic of the `supabase-js` wrapper repository.

The JavaScript sources are shallowly embedded:

* `src/utils/filter-parser.js` — `applyFilter`, `applyCondition`,
  `mapOperator`, `formatValue`;
* `src/core/data-repository.js` — the query-building parts of
  `DataRepository.select` and `DataRepository.selectWithFilter`;
* `src/core/view-engine.js` — the query-building part of
  `ViewEngine.executeView`.

A query-builder value is modelled as the trace of fluent builder calls
(`from`, `select`, `eq`, `or`, `range`, `order`, …) issued while the
query object is composed; network execution is outside the model.
JavaScript exceptions are modelled with `Except`: `AppError` throws keep
their message/status/context, and a JavaScript `TypeError` (for example
reading `.filters` of `undefined`) is a separate error constructor.
-/

namespace SupabaseJs

/-- A JavaScript scalar or array value as it reaches the filter layer.
`vnull` models JavaScript `null`.  (Entries of a filter *map* whose value
is `undefined` are modelled as `Option.none` at the map level.) -/
inductive Value where
  | vstr (s : String)
  | vnum (n : Int)
  | vbool (b : Bool)
  | vnull
  | varr (elems : List Value)
  deriving Repr

/-- A filter-tree node: either a leaf condition `{field, operator, value}`
or a logic group `{logic, filters}` (`filter-parser.js` distinguishes the
two by the shape test `filter.field && filter.operator` versus
`filter.logic && Array.isArray(filter.filters)`). -/
inductive FilterNode where
  | cond (field operator : String) (value : Value)
  | group (logic : String) (filters : List FilterNode)
  deriving Repr

/-- One fluent query-builder call, as issued by the embedded code.
`selectStep none` models a zero-argument `.select()` call. -/
inductive QStep where
  | fromTable (table : String)
  | selectStep (columns : Option String)
  | eq (field : String) (value : Value)
  | neq (field : String) (value : Value)
  | gt (field : String) (value : Value)
  | gte (field : String) (value : Value)
  | lt (field : String) (value : Value)
  | lte (field : String) (value : Value)
  | like (field : String) (value : Value)
  | ilike (field : String) (value : Value)
  | inList (field : String) (values : List Value)
  | isStep (field : String) (value : Value)
  | notStep (field : String) (operator : String) (value : Value)
  | orStep (conditions : String)
  | onStep (condition : String)
  | range (start stop : Int)
  | order (column : String) (ascending : Bool)
  deriving Repr

/-- The state of a query builder: the trace of calls so far. -/
abbrev Query := List QStep

/-- A thrown JavaScript error: an `AppError` from `error-handler.js`
(message, numeric status, context label), or a runtime `TypeError`. -/
inductive JsError where
  | appError (message : String) (status : Nat) (context : String)
  | typeError
  deriving Repr

/-- Models JavaScript `String.prototype.toUpperCase()` on the ASCII
strings used for operators and logic keywords: uppercase every
character. -/
def jsToUpper (s : String) : String :=
  ⟨s.data.map Char.toUpper⟩

/-- Models JavaScript `String.prototype.toLowerCase()` on the ASCII
strings used for values and join types: lowercase every character. -/
def jsToLower (s : String) : String :=
  ⟨s.data.map Char.toLower⟩

/-- Embeds the value-coercion step at the top of `applyCondition`
(filter-parser.js lines 75-78): a string equal case-insensitively to
`true`/`false` becomes a boolean; everything else passes through. -/
def coerceValue : Value → Value
  | .vstr s =>
      if jsToLower s = "true" then .vbool true
      else if jsToLower s = "false" then .vbool false
      else .vstr s
  | v => v

/-- Embeds `mapOperator` (filter-parser.js lines 120-139): the fixed
operator table keyed by the uppercased operator, falling back to the raw
operator string when the key is absent. -/
def mapOperator (operator : String) : String :=
  match jsToUpper operator with
  | "=" => "eq"
  | "<>" => "neq"
  | "!=" => "neq"
  | ">" => "gt"
  | ">=" => "gte"
  | "<" => "lt"
  | "<=" => "lte"
  | "LIKE" => "like"
  | "ILIKE" => "ilike"
  | "IN" => "in"
  | "IS" => "is"
  | "IS NOT" => "not.is"
  | "IS NULL" => "is"
  | "IS NOT NULL" => "not.is"
  | _ => operator

mutual

/-- Embeds `formatValue` (filter-parser.js lines 146-152): `null` prints
as `null`, strings are double-quoted, booleans print bare, arrays print
as a parenthesized comma list, numbers use their decimal form. -/
def formatValue : Value → String
  | .vnull => "null"
  | .vstr s => "\"" ++ s ++ "\""
  | .vbool b => if b then "true" else "false"
  | .varr elems => "(" ++ String.intercalate "," (formatValues elems) ++ ")"
  | .vnum n => toString n

/-- The element-wise `value.map(formatValue)` inside the array branch of
`formatValue`. -/
def formatValues : List Value → List String
  | [] => []
  | v :: rest => formatValue v :: formatValues rest

end

/-- Embeds `applyCondition` (filter-parser.js lines 71-113): coerce the
value, then dispatch on the uppercased operator.  Each successful branch
appends exactly one builder call to the trace. -/
def applyCondition (q : Query) (field operator : String) (value : Value) :
    Except JsError Query :=
  let processedValue := coerceValue value
  match jsToUpper operator with
  | "=" => .ok (q ++ [.eq field processedValue])
  | "<>" => .ok (q ++ [.neq field processedValue])
  | "!=" => .ok (q ++ [.neq field processedValue])
  | ">" => .ok (q ++ [.gt field processedValue])
  | ">=" => .ok (q ++ [.gte field processedValue])
  | "<" => .ok (q ++ [.lt field processedValue])
  | "<=" => .ok (q ++ [.lte field processedValue])
  | "LIKE" => .ok (q ++ [.like field processedValue])
  | "ILIKE" => .ok (q ++ [.ilike field processedValue])
  | "IN" =>
      .ok (q ++ [.inList field
        (match processedValue with
         | .varr elems => elems
         | v => [v])])
  | "IS NULL" => .ok (q ++ [.isStep field .vnull])
  | "IS NOT NULL" => .ok (q ++ [.notStep field "is" .vnull])
  | "IS" =>
      match processedValue with
      | .vnull => .ok (q ++ [.isStep field .vnull])
      | _ => .error (.appError "IS operator only supports null values" 400 "Filter Parser")
  | "IS NOT" =>
      match processedValue with
      | .vnull => .ok (q ++ [.notStep field "is" .vnull])
      | _ => .error (.appError "IS NOT operator only supports null values" 400 "Filter Parser")
  | _ => .error (.appError ("Unsupported operator: " ++ operator) 400 "Filter Parser")

/-- The string a condition contributes inside an OR group:
`field.token.formattedValue` (filter-parser.js lines 45 and 50). -/
def encodeCondition (field operator : String) (value : Value) : String :=
  field ++ "." ++ mapOperator operator ++ "." ++ formatValue value

/-- The inner `subFilter.filters.map(...)` of the nested-group arm
(filter-parser.js lines 49-51): every grandchild is encoded as a
condition string; a group grandchild makes `mapOperator` call
`toUpperCase` of `undefined`, a `TypeError`. -/
def encodeGrandchildren : List FilterNode → Except JsError (List String)
  | [] => .ok []
  | g :: rest =>
      match g with
      | .cond f o v =>
          match encodeGrandchildren rest with
          | .ok parts => .ok (encodeCondition f o v :: parts)
          | .error e => .error e
      | .group _ _ => .error .typeError

/-- Encodes one direct child of an OR group (the arrow function at
filter-parser.js lines 41-53).  A child that passes the JavaScript
truthiness test `subFilter.field && subFilter.operator` is encoded as a
single condition string; otherwise the code maps over
`subFilter.filters`, treating every grandchild as a condition.  A
condition child with an empty field or operator makes the JavaScript
read `.map` of `undefined` (a `TypeError`). -/
def encodeOrChild : FilterNode → Except JsError String
  | .cond field operator value =>
      if field = "" ∨ operator = "" then .error .typeError
      else .ok (encodeCondition field operator value)
  | .group _ filters =>
      match encodeGrandchildren filters with
      | .ok parts => .ok (String.intercalate "," parts)
      | .error e => .error e

/-- The element-wise encoding of the direct children of an OR group
(the outer `filters.map(...)` at filter-parser.js line 41), stopping at
the first thrown error as the JavaScript `map` would. -/
def encodeOrChildren : List FilterNode → Except JsError (List String)
  | [] => .ok []
  | c :: rest =>
      match encodeOrChild c with
      | .ok s =>
          match encodeOrChildren rest with
          | .ok parts => .ok (s :: parts)
          | .error e => .error e
      | .error e => .error e

/-- The `AppError` thrown when a node is neither condition- nor
group-shaped (filter-parser.js line 62). -/
def invalidFilterStructure : JsError :=
  .appError "Invalid filter structure" 400 "Filter Parser"

mutual

/-- Embeds `applyFilter` (filter-parser.js lines 10-63) on a non-null
node.  Shape tests `filter.field && filter.operator` and
`filter.logic && …` are modelled as non-emptiness of the corresponding
string; a node failing both shape tests raises `Invalid filter
structure`.  Group handling checks lengths 0 and 1 before inspecting
the logic, chains AND children sequentially, and emits one `.or` call
for an OR group. -/
def applyFilterNode (q : Query) : FilterNode → Except JsError Query
  | .cond field operator value =>
      if field = "" ∨ operator = "" then .error invalidFilterStructure
      else applyCondition q field operator value
  | .group logic filters =>
      if logic = "" then .error invalidFilterStructure
      else
        match filters with
        | [] => .ok q
        | [single] => applyFilterNode q single
        | first :: rest =>
            if jsToUpper logic = "AND" then
              applyFilterChain q (first :: rest)
            else if jsToUpper logic = "OR" then
              match encodeOrChildren (first :: rest) with
              | .ok parts => .ok (q ++ [.orStep (String.intercalate "," parts)])
              | .error e => .error e
            else
              .error (.appError ("Unsupported logic operator: " ++ logic) 400 "Filter Parser")

/-- The AND loop of `applyFilter` (filter-parser.js lines 33-37):
thread the query through the children in array order, stopping at the
first thrown error. -/
def applyFilterChain (q : Query) : List FilterNode → Except JsError Query
  | [] => .ok q
  | f :: rest =>
      match applyFilterNode q f with
      | .ok q2 => applyFilterChain q2 rest
      | .error e => .error e

end

/-- Embeds the exported `applyFilter` entry point including the
`if (!filter) return query` null check (filter-parser.js line 11). -/
def applyFilter (q : Query) : Option FilterNode → Except JsError Query
  | none => .ok q
  | some f => applyFilterNode q f

/-- The options bag `{page, pageSize, orderBy, ascending}` shared by
`select`, `selectWithFilter`, and `executeView`.  `none` models an
absent (`undefined`) field; `page`/`pageSize` are modelled as integers
(the JavaScript truthiness test `options.page && options.pageSize`
becomes presence plus non-zeroness). -/
structure QueryOptions where
  page : Option Int := none
  pageSize : Option Int := none
  orderBy : Option String := none
  ascending : Option Bool := none
  deriving Repr

/-- The pagination block repeated verbatim in `DataRepository.select`
(data-repository.js lines 36-40), `DataRepository.selectWithFilter`
(lines 80-84), and `ViewEngine.executeView` (view-engine.js): when both
`page` and `pageSize` are truthy, append one
`.range((page-1)*pageSize, (page-1)*pageSize + pageSize - 1)` call. -/
def applyPagination (q : Query) (options : QueryOptions) : Query :=
  match options.page, options.pageSize with
  | some page, some pageSize =>
      if page ≠ 0 ∧ pageSize ≠ 0 then
        q ++ [.range ((page - 1) * pageSize) ((page - 1) * pageSize + pageSize - 1)]
      else q
  | _, _ => q

/-- The ordering block repeated verbatim in the same three methods:
when `orderBy` is truthy, append one `.order` call whose `ascending`
flag is `options.ascending !== false`. -/
def applyOrdering (q : Query) (options : QueryOptions) : Query :=
  match options.orderBy with
  | some column =>
      if column = "" then q
      else
        q ++ [.order column
          (match options.ascending with
           | some false => false
           | _ => true)]
  | none => q

/-- The flat equality-filter loop of `DataRepository.select` (and of
`update`/`delete`; data-repository.js lines 29-33): every map entry
with a value that is neither `undefined` (`none`) nor `null` appends
one `.eq(key, value)` call, in map order. -/
def applyEqualityFilters (q : Query) : List (String × Option Value) → Query
  | [] => q
  | entry :: rest =>
      applyEqualityFilters
        (match entry.2 with
         | some v =>
             match v with
             | .vnull => q
             | _ => q ++ [.eq entry.1 v]
         | none => q)
        rest

/-- The query built by `DataRepository.select` before execution
(data-repository.js lines 23-47): `from(table).select(columns)`, the
flat equality filters, pagination, then ordering. -/
def selectQuery (tableName columns : String)
    (filters : List (String × Option Value)) (options : QueryOptions) : Query :=
  applyOrdering
    (applyPagination
      (applyEqualityFilters [.fromTable tableName, .selectStep (some columns)] filters)
      options)
    options

/-- The query built by `DataRepository.selectWithFilter` before
execution (data-repository.js lines 69-92): `from(table).select(columns)`,
then `applyFilter` when a filter tree is supplied (a thrown `AppError`
propagates), then pagination and ordering. -/
def selectWithFilterQuery (tableName columns : String)
    (filterObject : Option FilterNode) (options : QueryOptions) :
    Except JsError Query :=
  match applyFilter [.fromTable tableName, .selectStep (some columns)] filterObject with
  | .ok q => .ok (applyOrdering (applyPagination q options) options)
  | .error e => .error e

/-- A `{table, field}` reference inside a join specification. -/
structure TableField where
  table : String
  field : String
  deriving Repr

/-- One entry of a view's `join_definition`: `joinFrom` and `joinTo`
embed the JavaScript `from` and `to` properties. -/
structure JoinSpec where
  joinFrom : TableField
  joinType : String
  joinTo : TableField
  deriving Repr

/-- The persisted view definition fields consumed by `executeView`.
`allowed_filters = none` models an absent property (the code reads
`viewDefinition.allowed_filters || []`). -/
structure ViewDefinition where
  join_definition : List JoinSpec
  allowed_filters : Option (List String) := none
  is_public : Bool := true
  deriving Repr

/-- One iteration of the join loop in `ViewEngine.executeView`: build
the join condition string and dispatch on the lowercased `joinType`
(`left` and `inner` append a wildcard re-select plus `.on`; `right` and
unknown types throw). -/
def applyJoin (q : Query) (join : JoinSpec) : Except JsError Query :=
  let joinTable := join.joinTo.table
  let joinCondition :=
    join.joinFrom.table ++ "." ++ join.joinFrom.field ++ "=" ++
      joinTable ++ "." ++ join.joinTo.field
  match jsToLower join.joinType with
  | "left" =>
      .ok (q ++ [.selectStep (some ("*, " ++ joinTable ++ "(*)")), .onStep joinCondition])
  | "right" => .error (.appError "Right joins not supported yet" 400 "View Engine")
  | "inner" =>
      .ok (q ++ [.selectStep (some ("*, " ++ joinTable ++ "!inner(*)")), .onStep joinCondition])
  | _ => .error (.appError ("Unknown join type: " ++ join.joinType) 400 "View Engine")

/-- The `for (const join of joinDefinition)` loop of
`ViewEngine.executeView`: apply each join in array order, propagating
the first thrown error. -/
def applyJoins (q : Query) : List JoinSpec → Except JsError Query
  | [] => .ok q
  | join :: rest =>
      match applyJoin q join with
      | .ok q2 => applyJoins q2 rest
      | .error e => .error e

/-- The allowlist filter loop of `ViewEngine.executeView`: a caller
filter entry appends one `.eq(key, value)` call exactly when its key is
in `allowed_filters` (exact string membership) and its value is neither
`undefined` nor `null`; every other entry is skipped silently. -/
def applyAllowedFilters (allowedFilters : List String) (q : Query) :
    List (String × Option Value) → Query
  | [] => q
  | entry :: rest =>
      applyAllowedFilters allowedFilters
        (if allowedFilters.contains entry.1 then
          match entry.2 with
          | some v =>
              match v with
              | .vnull => q
              | _ => q ++ [.eq entry.1 v]
          | none => q
        else q)
        rest

/-- The query built by `ViewEngine.executeView` before execution:
`from(joinDefinition[0].from.table).select()`, every join in array
order, the allowlisted equality filters, pagination, then ordering.
An empty `join_definition` makes the JavaScript read a property of
`undefined` (a `TypeError`). -/
def executeViewQuery (viewDefinition : ViewDefinition)
    (filters : List (String × Option Value)) (options : QueryOptions) :
    Except JsError Query :=
  match viewDefinition.join_definition with
  | [] => .error .typeError
  | firstJoin :: _ =>
      match applyJoins [.fromTable firstJoin.joinFrom.table, .selectStep none]
          viewDefinition.join_definition with
      | .ok joined =>
          .ok (applyOrdering
            (applyPagination
              (applyAllowedFilters (viewDefinition.allowed_filters.getD []) joined filters)
              options)
            options)
      | .error e => .error e

/-! ### Helper predicates and trace projections used by the theorems -/

/-- Whether a node is a leaf condition. -/
def isCondNode : FilterNode → Bool
  | .cond _ _ _ => true
  | .group _ _ => false

/-- The shape of OR-group children covered by the spec's description of
the OR encoding: a condition child with truthy field and operator, or a
nested group all of whose children are conditions.  (Anything else
makes the JavaScript encoder throw a `TypeError`.) -/
def orEncodable : FilterNode → Bool
  | .cond field operator _ => field != "" && operator != ""
  | .group _ filters => filters.all isCondNode

/-- The string an OR-group child contributes on the success path:
a condition child becomes `field.token.formattedValue`; a nested group
child is flattened into its children's condition strings joined by
commas (a group grandchild never occurs under `orEncodable`). -/
def orChildString : FilterNode → String
  | .cond field operator value => encodeCondition field operator value
  | .group _ filters =>
      String.intercalate ","
        (filters.map (fun g =>
          match g with
          | .cond f o v => encodeCondition f o v
          | .group _ _ => ""))

/-- The `.range` calls of a trace, with their bounds. -/
def rangeSteps (q : Query) : List (Int × Int) :=
  q.filterMap (fun step =>
    match step with
    | .range a b => some (a, b)
    | _ => none)

/-- Whether a builder call is an `.eq` call. -/
def isEqStep : QStep → Bool
  | .eq _ _ => true
  | _ => false

/-- The `.eq` calls of a trace. -/
def eqSteps (q : Query) : Query :=
  q.filter isEqStep

/-- The equality calls the flat-map filter loop of
`DataRepository.select` contributes: one `.eq` per entry whose value is
neither `undefined` nor `null`, in map order. -/
def equalityFilterSteps (filters : List (String × Option Value)) : Query :=
  filters.filterMap (fun entry =>
    match entry.2 with
    | some v =>
        match v with
        | .vnull => none
        | _ => some (.eq entry.1 v)
    | none => none)

/-- The equality calls the allowlist filter loop of
`ViewEngine.executeView` contributes: one `.eq` per entry whose key is
in the allowlist and whose value is neither `undefined` nor `null`. -/
def allowedFilterSteps (allowed : List String)
    (filters : List (String × Option Value)) : Query :=
  filters.filterMap (fun entry =>
    if allowed.contains entry.1 then
      match entry.2 with
      | some v =>
          match v with
          | .vnull => none
          | _ => some (.eq entry.1 v)
      | none => none
    else none)

/-! ### Supporting lemmas -/

theorem rangeSteps_append (a b : Query) :
    rangeSteps (a ++ b) = rangeSteps a ++ rangeSteps b := by
  simp [rangeSteps, List.filterMap_append]

theorem eqSteps_append (a b : Query) :
    eqSteps (a ++ b) = eqSteps a ++ eqSteps b := by
  simp [eqSteps, List.filter_append]

theorem applyCondition_rangeSteps {q q' : Query} {f o : String} {v : Value}
    (h : applyCondition q f o v = .ok q') : rangeSteps q' = rangeSteps q := by
  unfold applyCondition at h
  split at h
  all_goals try (dsimp only at h; split at h)
  all_goals first
    | exact Except.noConfusion h
    | (injection h with h2; subst h2; simp [rangeSteps_append, rangeSteps])

theorem applyFilterNode_rangeSteps (q : Query) (f : FilterNode) :
    ∀ q', applyFilterNode q f = .ok q' → rangeSteps q' = rangeSteps q := by
  refine applyFilterNode.induct
    (fun q f => ∀ q', applyFilterNode q f = .ok q' → rangeSteps q' = rangeSteps q)
    (fun q l => ∀ q', applyFilterChain q l = .ok q' → rangeSteps q' = rangeSteps q)
    ?_ ?_ ?_ ?_ ?_ ?_ ?_ ?_ ?_ ?_ ?_ ?_ q f
  · intro q a b c h q' hq
    unfold applyFilterNode at hq
    rw [if_pos h] at hq
    exact Except.noConfusion hq
  · intro q a b c h q' hq
    unfold applyFilterNode at hq
    rw [if_neg h] at hq
    exact applyCondition_rangeSteps hq
  · intro q l q' hq
    unfold applyFilterNode at hq
    rw [if_pos rfl] at hq
    exact Except.noConfusion hq
  · intro q a h q' hq
    unfold applyFilterNode at hq
    rw [if_neg h] at hq
    injection hq with h2
    rw [h2]
  · intro q a h single ih q' hq
    unfold applyFilterNode at hq
    rw [if_neg h] at hq
    exact ih q' hq
  · intro q a h first rest hne hand ih q' hq
    rcases rest with _ | ⟨second, rest2⟩
    · exact absurd rfl hne
    unfold applyFilterNode at hq
    dsimp only at hq
    rw [if_neg h, if_pos hand] at hq
    exact ih q' hq
  · intro q a h first rest hne hnand hor parts henc q' hq
    rcases rest with _ | ⟨second, rest2⟩
    · exact absurd rfl hne
    unfold applyFilterNode at hq
    dsimp only at hq
    rw [if_neg h, if_neg hnand, if_pos hor, henc] at hq
    injection hq with h2
    subst h2
    simp [rangeSteps_append, rangeSteps]
  · intro q a h first rest hne hnand hor e henc q' hq
    rcases rest with _ | ⟨second, rest2⟩
    · exact absurd rfl hne
    unfold applyFilterNode at hq
    dsimp only at hq
    rw [if_neg h, if_neg hnand, if_pos hor, henc] at hq
    exact Except.noConfusion hq
  · intro q a h first rest hne hnand hnor q' hq
    rcases rest with _ | ⟨second, rest2⟩
    · exact absurd rfl hne
    unfold applyFilterNode at hq
    dsimp only at hq
    rw [if_neg h, if_neg hnand, if_neg hnor] at hq
    exact Except.noConfusion hq
  · intro q q' hq
    unfold applyFilterChain at hq
    injection hq with h2
    rw [h2]
  · intro q g rest q2 hg ih1 ih2 q' hq
    unfold applyFilterChain at hq
    rw [hg] at hq
    exact (ih2 q' hq).trans (ih1 q2 hg)
  · intro q g rest e hg ih1 q' hq
    unfold applyFilterChain at hq
    rw [hg] at hq
    exact Except.noConfusion hq

theorem applyFilter_rangeSteps {q q' : Query} {f : Option FilterNode}
    (h : applyFilter q f = .ok q') : rangeSteps q' = rangeSteps q := by
  cases f with
  | none =>
      injection h with h2
      rw [h2]
  | some node => exact applyFilterNode_rangeSteps q node q' h

theorem applyEqualityFilters_spec :
    ∀ (fs : List (String × Option Value)) (q : Query),
      applyEqualityFilters q fs = q ++ equalityFilterSteps fs := by
  intro fs
  induction fs with
  | nil => intro q; simp [applyEqualityFilters, equalityFilterSteps]
  | cons entry rest ih =>
      intro q
      obtain ⟨k, v⟩ := entry
      rcases v with _ | w
      · simpa [applyEqualityFilters, equalityFilterSteps] using ih q
      · cases w <;>
          simp [applyEqualityFilters, equalityFilterSteps, ih]

theorem applyAllowedFilters_spec (allowed : List String) :
    ∀ (fs : List (String × Option Value)) (q : Query),
      applyAllowedFilters allowed q fs = q ++ allowedFilterSteps allowed fs := by
  intro fs
  induction fs with
  | nil => intro q; simp [applyAllowedFilters, allowedFilterSteps]
  | cons entry rest ih =>
      intro q
      obtain ⟨k, v⟩ := entry
      by_cases hmem : k ∈ allowed
      · rcases v with _ | w
        · simpa [applyAllowedFilters, allowedFilterSteps, hmem] using ih q
        · cases w <;>
            simp [applyAllowedFilters, allowedFilterSteps, hmem, ih]
      · rcases v with _ | w
        · simpa [applyAllowedFilters, allowedFilterSteps, hmem] using ih q
        · cases w <;>
            simp [applyAllowedFilters, allowedFilterSteps, hmem, ih]

theorem equalityFilterSteps_rangeSteps (fs : List (String × Option Value)) :
    rangeSteps (equalityFilterSteps fs) = [] := by
  induction fs with
  | nil => rfl
  | cons entry rest ih =>
      obtain ⟨k, v⟩ := entry
      rcases v with _ | w
      · simpa [equalityFilterSteps] using ih
      · cases w <;> simpa [equalityFilterSteps, rangeSteps] using ih

theorem allowedFilterSteps_rangeSteps (allowed : List String)
    (fs : List (String × Option Value)) :
    rangeSteps (allowedFilterSteps allowed fs) = [] := by
  induction fs with
  | nil => rfl
  | cons entry rest ih =>
      obtain ⟨k, v⟩ := entry
      by_cases hmem : k ∈ allowed
      · rcases v with _ | w
        · simpa [allowedFilterSteps, hmem] using ih
        · cases w <;> simpa [allowedFilterSteps, hmem, rangeSteps] using ih
      · rcases v with _ | w
        · simpa [allowedFilterSteps, hmem] using ih
        · cases w <;> simpa [allowedFilterSteps, hmem, rangeSteps] using ih

theorem eqSteps_of_all_eq :
    ∀ (l : Query), (∀ s ∈ l, isEqStep s = true) → eqSteps l = l := by
  intro l
  induction l with
  | nil => intro _; rfl
  | cons s rest ih =>
      intro h
      have hs := h s (by simp)
      have hrest := ih (fun t ht => h t (by simp [ht]))
      simp [eqSteps, List.filter_cons, hs] at hrest ⊢
      exact hrest

theorem allowedFilterSteps_all_eq (allowed : List String)
    (fs : List (String × Option Value)) :
    ∀ s ∈ allowedFilterSteps allowed fs, isEqStep s = true := by
  intro s hs
  simp only [allowedFilterSteps, List.mem_filterMap] at hs
  obtain ⟨entry, _, hsome⟩ := hs
  split at hsome
  · split at hsome
    · split at hsome
      · exact Option.noConfusion hsome
      · injection hsome with h2
        rw [← h2]
        rfl
    · exact Option.noConfusion hsome
  · exact Option.noConfusion hsome

theorem allowedFilterSteps_eqSteps (allowed : List String)
    (fs : List (String × Option Value)) :
    eqSteps (allowedFilterSteps allowed fs) = allowedFilterSteps allowed fs :=
  eqSteps_of_all_eq _ (allowedFilterSteps_all_eq allowed fs)

theorem applyJoin_ok {q q' : Query} {j : JoinSpec}
    (h : applyJoin q j = .ok q') :
    ∃ cols cond, q' = q ++ [.selectStep (some cols), .onStep cond] := by
  unfold applyJoin at h
  split at h
  all_goals first
    | exact Except.noConfusion h
    | (injection h with h2; exact ⟨_, _, h2.symm⟩)

theorem applyJoins_rangeSteps :
    ∀ (l : List JoinSpec) (q q' : Query), applyJoins q l = .ok q' →
      rangeSteps q' = rangeSteps q := by
  intro l
  induction l with
  | nil =>
      intro q q' h
      injection h with h2
      rw [h2]
  | cons j rest ih =>
      intro q q' h
      unfold applyJoins at h
      cases hj : applyJoin q j with
      | ok q2 =>
          rw [hj] at h
          obtain ⟨cols, cond, hq2⟩ := applyJoin_ok hj
          rw [ih q2 q' h, hq2, rangeSteps_append]
          simp [rangeSteps]
      | error e =>
          rw [hj] at h
          exact Except.noConfusion h

theorem applyJoins_eqSteps :
    ∀ (l : List JoinSpec) (q q' : Query), applyJoins q l = .ok q' →
      eqSteps q' = eqSteps q := by
  intro l
  induction l with
  | nil =>
      intro q q' h
      injection h with h2
      rw [h2]
  | cons j rest ih =>
      intro q q' h
      unfold applyJoins at h
      cases hj : applyJoin q j with
      | ok q2 =>
          rw [hj] at h
          obtain ⟨cols, cond, hq2⟩ := applyJoin_ok hj
          rw [ih q2 q' h, hq2, eqSteps_append]
          simp [eqSteps, isEqStep]
      | error e =>
          rw [hj] at h
          exact Except.noConfusion h

theorem applyPagination_pos {options : QueryOptions} (q : Query) {p s : Int}
    (hp : options.page = some p) (hs : options.pageSize = some s)
    (hp0 : p ≠ 0) (hs0 : s ≠ 0) :
    applyPagination q options = q ++ [.range ((p - 1) * s) ((p - 1) * s + s - 1)] := by
  unfold applyPagination
  rw [hp, hs]
  dsimp only
  rw [if_pos ⟨hp0, hs0⟩]

theorem applyPagination_absent {options : QueryOptions} (q : Query)
    (h : options.page = none ∨ options.pageSize = none) :
    applyPagination q options = q := by
  obtain ⟨page, pageSize, orderBy, asc⟩ := options
  rcases h with h | h <;> simp only at h <;> subst h
  · rfl
  · unfold applyPagination
    dsimp only
    rcases page with _ | p <;> rfl

theorem applyPagination_eqSteps (q : Query) (options : QueryOptions) :
    eqSteps (applyPagination q options) = eqSteps q := by
  unfold applyPagination
  split
  · split
    · simp [eqSteps_append, eqSteps, isEqStep]
    · rfl
  · rfl

theorem applyOrdering_rangeSteps (q : Query) (options : QueryOptions) :
    rangeSteps (applyOrdering q options) = rangeSteps q := by
  unfold applyOrdering
  split
  · split
    · rfl
    · simp [rangeSteps_append, rangeSteps]
  · rfl

theorem applyOrdering_eqSteps (q : Query) (options : QueryOptions) :
    eqSteps (applyOrdering q options) = eqSteps q := by
  unfold applyOrdering
  split
  · split
    · rfl
    · simp [eqSteps_append, eqSteps, isEqStep]
  · rfl

theorem encodeGrandchildren_ok :
    ∀ (l : List FilterNode), (∀ c ∈ l, isCondNode c = true) →
      encodeGrandchildren l =
        .ok (l.map (fun g =>
          match g with
          | .cond f o v => encodeCondition f o v
          | .group _ _ => "")) := by
  intro l
  induction l with
  | nil => intro _; rfl
  | cons g rest ih =>
      intro h
      have hg := h g (by simp)
      cases g with
      | cond f o v =>
          have hrest := ih (fun c hc => h c (by simp [hc]))
          simp [encodeGrandchildren, hrest]
      | group lg fs => simp [isCondNode] at hg

theorem encodeOrChild_ok (c : FilterNode) (h : orEncodable c = true) :
    encodeOrChild c = .ok (orChildString c) := by
  cases c with
  | cond f o v =>
      simp only [orEncodable, Bool.and_eq_true, bne_iff_ne, ne_eq] at h
      simp [encodeOrChild, orChildString, h.1, h.2]
  | group lg fs =>
      simp only [orEncodable, List.all_eq_true] at h
      simp [encodeOrChild, orChildString, encodeGrandchildren_ok fs h]

theorem encodeOrChildren_ok :
    ∀ (l : List FilterNode), (∀ c ∈ l, orEncodable c = true) →
      encodeOrChildren l = .ok (l.map orChildString) := by
  intro l
  induction l with
  | nil => intro _; rfl
  | cons c rest ih =>
      intro h
      have hc := encodeOrChild_ok c (h c (by simp))
      have hrest := ih (fun d hd => h d (by simp [hd]))
      simp [encodeOrChildren, hc, hrest]

/-! ### Claim theorems -/

/-- Claim C5: `applyFilter` is the identity on degenerate inputs: a null
filter returns the query unchanged; a group (with a truthy `logic`
property, which is what the code's shape test `filter.logic && …`
requires before the node is handled as a group at all) with an empty
`filters` list returns the query unchanged; and a group with exactly one
child behaves exactly like applying that child directly, whatever its
`logic` says. -/
theorem claim_C5_degenerate_identity :
    (∀ q : Query, applyFilter q none = .ok q) ∧
    (∀ (q : Query) (logic : String), logic ≠ "" →
      applyFilter q (some (.group logic [])) = .ok q) ∧
    (∀ (q : Query) (logic : String) (child : FilterNode), logic ≠ "" →
      applyFilter q (some (.group logic [child])) = applyFilter q (some child)) := by
  refine ⟨fun q => rfl, fun q logic h => ?_, fun q logic child h => ?_⟩
  · show applyFilterNode q (.group logic []) = .ok q
    unfold applyFilterNode
    rw [if_neg h]
  · show applyFilterNode q (.group logic [child]) = applyFilterNode q child
    conv_lhs => unfold applyFilterNode
    rw [if_neg h]

/-- Witness for C5 at concrete inputs: an empty `AND` group is the
identity, and a one-child group with the unsupported logic `XOR` still
degenerates to its single child. -/
theorem claim_C5_witness :
    applyFilter [] (some (.group "AND" [])) = .ok [] ∧
    applyFilter [] (some (.group "XOR" [.cond "a" "=" (.vnum 1)])) =
      applyFilter [] (some (.cond "a" "=" (.vnum 1))) :=
  ⟨claim_C5_degenerate_identity.2.1 [] "AND" (by decide),
   claim_C5_degenerate_identity.2.2 [] "XOR" (.cond "a" "=" (.vnum 1)) (by decide)⟩

/-- Claim C8: a condition whose uppercased operator falls outside the
closed operator set fails with the `Unsupported operator` `AppError`
(status 400, context `Filter Parser`); in particular the operator
`between` always fails this way.  The non-emptiness hypotheses on field
and operator state that the node passes the JavaScript shape test
`filter.field && filter.operator` and is dispatched as a condition at
all. -/
theorem claim_C8_unsupported_operator :
    (∀ (q : Query) (field op : String) (v : Value),
      field ≠ "" → op ≠ "" →
      jsToUpper op ∉
        (["=", "<>", "!=", ">", ">=", "<", "<=", "LIKE", "ILIKE", "IN",
          "IS", "IS NOT", "IS NULL", "IS NOT NULL"] : List String) →
      applyFilter q (some (.cond field op v)) =
        .error (.appError ("Unsupported operator: " ++ op) 400 "Filter Parser")) ∧
    (∀ (q : Query) (field : String) (v : Value),
      field ≠ "" →
      applyFilter q (some (.cond field "between" v)) =
        .error (.appError ("Unsupported operator: " ++ "between") 400 "Filter Parser")) := by
  have main : ∀ (q : Query) (field op : String) (v : Value),
      field ≠ "" → op ≠ "" →
      jsToUpper op ∉
        (["=", "<>", "!=", ">", ">=", "<", "<=", "LIKE", "ILIKE", "IN",
          "IS", "IS NOT", "IS NULL", "IS NOT NULL"] : List String) →
      applyFilter q (some (.cond field op v)) =
        .error (.appError ("Unsupported operator: " ++ op) 400 "Filter Parser") := by
    intro q field op v hf ho hset
    show applyFilterNode q (.cond field op v) =
      .error (.appError ("Unsupported operator: " ++ op) 400 "Filter Parser")
    unfold applyFilterNode
    rw [if_neg (by tauto)]
    unfold applyCondition
    split
    all_goals first
      | rfl
      | (rename_i heq; exact absurd (by rw [heq]; decide) hset)
  exact ⟨main, fun q field v hf =>
    main q field "between" v hf (by decide) (by decide)⟩

/-- Witness for C8: the `between` condition of the spec's scenario fails
with the `Unsupported operator` error. -/
theorem claim_C8_witness :
    applyFilter [] (some (.cond "amount" "between" (.vnum 5))) =
      .error (.appError ("Unsupported operator: " ++ "between") 400 "Filter Parser") :=
  claim_C8_unsupported_operator.2 [] "amount" (.vnum 5) (by decide)

/-- Counterexample to claim C4 as stated: a group whose logic is `XOR`
(outside {AND, OR}) but whose `filters` list is empty does NOT fail with
the `Unsupported logic` error — `applyFilter` returns the query
unchanged, because the empty-group short-circuit at filter-parser.js
line 23 runs before the logic is ever inspected. -/
theorem claim_C4_counterexample :
    applyFilter [] (some (.group "XOR" [])) = .ok [] := rfl

/-- Claim C4 as amended: a group with a truthy `logic` outside
{AND, OR} (case-insensitively) fails with the `Unsupported logic
operator` `AppError` provided the group has at least two children; with
zero children the group is the identity and with one child it
degenerates to that child (claim C5). -/
theorem claim_C4_amended_unsupported_logic :
    ∀ (q : Query) (logic : String) (c1 c2 : FilterNode) (rest : List FilterNode),
      logic ≠ "" → jsToUpper logic ≠ "AND" → jsToUpper logic ≠ "OR" →
      applyFilter q (some (.group logic (c1 :: c2 :: rest))) =
        .error (.appError ("Unsupported logic operator: " ++ logic) 400 "Filter Parser") := by
  intro q logic c1 c2 rest h hand hor
  show applyFilterNode q (.group logic (c1 :: c2 :: rest)) =
    .error (.appError ("Unsupported logic operator: " ++ logic) 400 "Filter Parser")
  unfold applyFilterNode
  dsimp only
  rw [if_neg h, if_neg hand, if_neg hor]

/-- Witness for the amended C4: a two-child `xor` group fails with the
`Unsupported logic operator` error (case-insensitively: `xor`
uppercases to `XOR`, which is outside {AND, OR}). -/
theorem claim_C4_witness :
    applyFilter [] (some (.group "xor"
      [.cond "a" "=" (.vnum 1), .cond "b" "=" (.vnum 2)])) =
      .error (.appError ("Unsupported logic operator: " ++ "xor") 400 "Filter Parser") :=
  claim_C4_amended_unsupported_logic [] "xor"
    (.cond "a" "=" (.vnum 1)) (.cond "b" "=" (.vnum 2)) []
    (by decide) (by decide) (by decide)

/-- Counterexample to claim C7 as stated: for the scalar string value
`"true"`, `IN` dispatch boolean-coerces the scalar before wrapping it
(`in("flag", [true])`), while the single-element sequence `["true"]`
passes through uncoerced (`in("flag", ["true"])`) — the two calls are
NOT the same, because value coercion applies to scalars but never
recurses into arrays. -/
theorem claim_C7_counterexample :
    applyFilter [] (some (.cond "flag" "IN" (.vstr "true"))) ≠
      applyFilter [] (some (.cond "flag" "IN" (.varr [.vstr "true"]))) := by
  intro h
  have h1 : applyFilter [] (some (.cond "flag" "IN" (.vstr "true"))) =
      .ok [.inList "flag" [.vbool true]] := rfl
  have h2 : applyFilter [] (some (.cond "flag" "IN" (.varr [.vstr "true"]))) =
      .ok [.inList "flag" [.vstr "true"]] := rfl
  rw [h1, h2] at h
  injection h with h3
  injection h3 with h4 h5
  injection h4 with h6 h7
  injection h7 with h8 h9
  exact Value.noConfusion h8

/-- Claim C7 as amended: for a condition whose uppercased operator is
`IN`, any non-array scalar value `v` that is not subject to the
`"true"`/`"false"` string coercion (stated as `coerceValue v = v`)
produces exactly the same query-builder call as the single-element
sequence `[v]` — both dispatch `in(field, [v])`. -/
theorem claim_C7_amended_in_normalization :
    ∀ (q : Query) (field op : String) (v : Value),
      jsToUpper op = "IN" → field ≠ "" → op ≠ "" →
      (∀ elems, v ≠ .varr elems) →
      coerceValue v = v →
      applyFilter q (some (.cond field op v)) =
          .ok (q ++ [.inList field [v]]) ∧
        applyFilter q (some (.cond field op (.varr [v]))) =
          .ok (q ++ [.inList field [v]]) := by
  intro q field op v hin hf ho harr hc
  constructor
  · show applyFilterNode q (.cond field op v) = .ok (q ++ [.inList field [v]])
    unfold applyFilterNode
    rw [if_neg (by tauto)]
    unfold applyCondition
    rw [hin, hc]
    cases v with
    | varr elems => exact absurd rfl (harr elems)
    | vstr s => rfl
    | vnum n => rfl
    | vbool b => rfl
    | vnull => rfl
  · show applyFilterNode q (.cond field op (.varr [v])) =
      .ok (q ++ [.inList field [v]])
    unfold applyFilterNode
    rw [if_neg (by tauto)]
    unfold applyCondition
    rw [hin]
    rfl

/-- Witness for the amended C7: the scalar 7 under lowercase `in` is
normalized to the sequence `[7]`, matching the explicit sequence. -/
theorem claim_C7_witness :
    applyFilter [] (some (.cond "id" "in" (.vnum 7))) =
        .ok [.inList "id" [.vnum 7]] ∧
      applyFilter [] (some (.cond "id" "in" (.varr [.vnum 7]))) =
        .ok [.inList "id" [.vnum 7]] :=
  claim_C7_amended_in_normalization [] "id" "in" (.vnum 7)
    (by decide) (by decide) (by decide)
    (fun elems h => Value.noConfusion h) rfl

/-- Claim C1: an OR group with at least two children issues exactly one
call to the disjunction primitive `.or`, whose argument is the
comma-join of the children's encodings — a condition child becomes
`field.token.formattedValue` and a nested group child is flattened into
its own children's condition encodings joined by commas, losing the
inner AND/OR distinction (`orChildString` ignores the nested group's
logic entirely).  The `orEncodable` hypothesis restricts to the shapes
the spec describes (condition children, or nested groups of
conditions); anything else makes the JavaScript throw a `TypeError`.
In particular the spec's scenario tree produces one AND-chained
equality on `status` plus the single OR string
`role.eq."admin",role.eq."moderator"`. -/
theorem claim_C1_or_group_encoding :
    (∀ (q : Query) (logic : String) (c1 c2 : FilterNode) (rest : List FilterNode),
      jsToUpper logic = "OR" →
      (∀ c ∈ c1 :: c2 :: rest, orEncodable c = true) →
      applyFilter q (some (.group logic (c1 :: c2 :: rest))) =
        .ok (q ++ [.orStep (String.intercalate ","
          ((c1 :: c2 :: rest).map orChildString))])) ∧
    (∀ q : Query,
      applyFilter q (some (.group "AND"
        [.cond "status" "=" (.vstr "active"),
         .group "OR" [.cond "role" "=" (.vstr "admin"),
                      .cond "role" "=" (.vstr "moderator")]])) =
        .ok (q ++ [.eq "status" (.vstr "active"),
                   .orStep "role.eq.\"admin\",role.eq.\"moderator\""])) := by
  constructor
  · intro q logic c1 c2 rest hor henc
    have hne : logic ≠ "" := by
      intro h
      rw [h] at hor
      exact absurd hor (by decide)
    have hnand : ¬jsToUpper logic = "AND" := by
      rw [hor]; decide
    show applyFilterNode q (.group logic (c1 :: c2 :: rest)) = _
    unfold applyFilterNode
    dsimp only
    rw [if_neg hne, if_neg hnand, if_pos hor, encodeOrChildren_ok _ henc]
  · intro q
    have h : applyFilter q (some (.group "AND"
        [.cond "status" "=" (.vstr "active"),
         .group "OR" [.cond "role" "=" (.vstr "admin"),
                      .cond "role" "=" (.vstr "moderator")]])) =
        .ok ((q ++ [.eq "status" (.vstr "active")]) ++
          [.orStep "role.eq.\"admin\",role.eq.\"moderator\""]) := rfl
    rw [h]
    simp

/-- Witness for C1 at concrete inputs: the scenario's OR group (with
lowercase logic `or`) produces the single disjunction string, and the
full scenario tree produces the equality plus the OR string. -/
theorem claim_C1_witness :
    applyFilter [] (some (.group "or"
      [.cond "role" "=" (.vstr "admin"), .cond "role" "=" (.vstr "moderator")])) =
      .ok [.orStep (String.intercalate ","
        ([FilterNode.cond "role" "=" (.vstr "admin"),
          FilterNode.cond "role" "=" (.vstr "moderator")].map orChildString))] :=
  claim_C1_or_group_encoding.1 [] "or"
    (.cond "role" "=" (.vstr "admin")) (.cond "role" "=" (.vstr "moderator")) []
    (by decide) (by decide)

/-- Claim C9: the `"true"`/`"false"` string-to-boolean coercion happens
only on the direct condition-dispatch path, never on the OR-group
string-encoding path.  For a condition `field = s` with `s` a boolean
word: direct dispatch passes the coerced boolean to `.eq`, while the
same condition as a child of a two-child OR group is encoded with the
raw double-quoted string — `field.eq."s"` — so the two paths encode the
same condition differently. -/
theorem claim_C9_coercion_only_on_dispatch :
    ∀ (q : Query) (field s : String) (other : FilterNode),
      field ≠ "" →
      (jsToLower s = "true" ∨ jsToLower s = "false") →
      orEncodable other = true →
      (applyFilter q (some (.cond field "=" (.vstr s))) =
          .ok (q ++ [.eq field (.vbool (jsToLower s == "true"))])) ∧
        (applyFilter q (some (.group "OR" [.cond field "=" (.vstr s), other])) =
          .ok (q ++ [.orStep
            (encodeCondition field "=" (.vstr s) ++ "," ++ orChildString other)])) ∧
        encodeCondition field "=" (.vstr s) =
          field ++ "." ++ "eq" ++ "." ++ ("\"" ++ s ++ "\"") := by
  intro q field s other hf hbool hother
  refine ⟨?_, ?_, rfl⟩
  · show applyFilterNode q (.cond field "=" (.vstr s)) = _
    unfold applyFilterNode
    rw [if_neg (by simp [hf])]
    unfold applyCondition
    rcases hbool with h | h <;>
      simp [coerceValue, h, jsToUpper]
  · have hgen := claim_C1_or_group_encoding.1 q "OR"
      (.cond field "=" (.vstr s)) other [] (by decide)
      (by
        intro c hc
        rcases List.mem_cons.mp hc with rfl | hc2
        · simp [orEncodable, hf]
        · rcases List.mem_cons.mp hc2 with rfl | hc3
          · exact hother
          · exact absurd hc3 (List.not_mem_nil c))
    rw [hgen]
    have hint : String.intercalate ","
        ([FilterNode.cond field "=" (.vstr s), other].map orChildString) =
        orChildString (.cond field "=" (.vstr s)) ++ "," ++ orChildString other := by
      simp [String.intercalate, String.intercalate.go]
    rw [hint]
    rfl

/-- Witness for C9 at `s = "True"` (mixed case): direct dispatch yields
`eq(flag, true)` while the OR encoding yields `flag.eq."True"`. -/
theorem claim_C9_witness :
    (applyFilter [] (some (.cond "flag" "=" (.vstr "True"))) =
        .ok [.eq "flag" (.vbool ((jsToLower "True") == "true"))]) ∧
      (applyFilter [] (some (.group "OR"
        [.cond "flag" "=" (.vstr "True"), .cond "x" ">" (.vnum 0)])) =
        .ok [.orStep (encodeCondition "flag" "=" (.vstr "True") ++ "," ++
          orChildString (.cond "x" ">" (.vnum 0)))]) ∧
      encodeCondition "flag" "=" (.vstr "True") =
        "flag" ++ "." ++ "eq" ++ "." ++ ("\"" ++ "True" ++ "\"") :=
  claim_C9_coercion_only_on_dispatch [] "flag" "True" (.cond "x" ">" (.vnum 0))
    (by decide) (Or.inl (by decide)) (by decide)

/-- Claim C6: `selectWithFilter` on the single-condition tree
`{field: "status", operator: "=", value: "active"}` builds exactly the
same builder-call trace as `select` with the flat equality map
`{status: "active"}` on the same table and columns — one
`eq("status", "active")` on the selected columns, followed by the same
pagination and ordering. -/
theorem claim_C6_roundtrip_equality :
    ∀ (tableName columns : String) (options : QueryOptions),
      selectWithFilterQuery tableName columns
          (some (.cond "status" "=" (.vstr "active"))) options =
        .ok (selectQuery tableName columns
          [("status", some (.vstr "active"))] options) := by
  intro t c o
  rfl

/-! ### Further supporting lemmas for pagination and view claims -/

theorem composed_rangeSteps_pos {o : QueryOptions} {p s : Int} (q : Query)
    (hp : o.page = some p) (hs : o.pageSize = some s) (hp0 : 0 < p) (hs0 : 0 < s) :
    rangeSteps (applyOrdering (applyPagination q o) o) =
      rangeSteps q ++ [((p - 1) * s, p * s - 1)] := by
  rw [applyOrdering_rangeSteps, applyPagination_pos q hp hs (by omega) (by omega),
    rangeSteps_append]
  have heq : (p - 1) * s + s - 1 = p * s - 1 := by ring
  simp [rangeSteps, heq]

theorem composed_rangeSteps_absent {o : QueryOptions} (q : Query)
    (h : o.page = none ∨ o.pageSize = none) :
    rangeSteps (applyOrdering (applyPagination q o) o) = rangeSteps q := by
  rw [applyOrdering_rangeSteps, applyPagination_absent q h]

theorem selectQuery_inner_rangeSteps (t c : String)
    (fs : List (String × Option Value)) :
    rangeSteps (applyEqualityFilters [.fromTable t, .selectStep (some c)] fs) = [] := by
  rw [applyEqualityFilters_spec, rangeSteps_append, equalityFilterSteps_rangeSteps]
  rfl

theorem equalityFilterSteps_append (l1 l2 : List (String × Option Value)) :
    equalityFilterSteps (l1 ++ l2) =
      equalityFilterSteps l1 ++ equalityFilterSteps l2 := by
  simp [equalityFilterSteps, List.filterMap_append]

theorem allowedFilterSteps_append (a : List String)
    (l1 l2 : List (String × Option Value)) :
    allowedFilterSteps a (l1 ++ l2) =
      allowedFilterSteps a l1 ++ allowedFilterSteps a l2 := by
  simp [allowedFilterSteps, List.filterMap_append]

theorem equalityFilterSteps_cons_null (k : String) (v : Option Value)
    (rest : List (String × Option Value)) (h : v = none ∨ v = some .vnull) :
    equalityFilterSteps ((k, v) :: rest) = equalityFilterSteps rest := by
  rcases h with rfl | rfl <;> rfl

theorem allowedFilterSteps_cons_null (a : List String) (k : String) (v : Option Value)
    (rest : List (String × Option Value)) (h : v = none ∨ v = some .vnull) :
    allowedFilterSteps a ((k, v) :: rest) = allowedFilterSteps a rest := by
  rcases h with rfl | rfl <;>
    · simp only [allowedFilterSteps, List.filterMap_cons]
      split
      · rfl
      · rename_i b heq
        split at heq <;> exact Option.noConfusion heq

theorem selectQuery_filters_congr (t c : String)
    (fs1 fs2 : List (String × Option Value)) (o : QueryOptions)
    (h : equalityFilterSteps fs1 = equalityFilterSteps fs2) :
    selectQuery t c fs1 o = selectQuery t c fs2 o := by
  unfold selectQuery
  rw [applyEqualityFilters_spec, applyEqualityFilters_spec, h]

theorem executeViewQuery_filters_congr (vd : ViewDefinition)
    (fs1 fs2 : List (String × Option Value)) (o : QueryOptions)
    (h : allowedFilterSteps (vd.allowed_filters.getD []) fs1 =
      allowedFilterSteps (vd.allowed_filters.getD []) fs2) :
    executeViewQuery vd fs1 o = executeViewQuery vd fs2 o := by
  unfold executeViewQuery
  split
  · rfl
  · split
    · rw [applyAllowedFilters_spec, applyAllowedFilters_spec, h]
    · rfl

/-! ### Remaining claim theorems -/

/-- Claim C3: in `select`, `selectWithFilter`, and `executeView`, when
both `page` and `pageSize` are present and positive, the built query
contains exactly one `.range` call, with the closed interval
`[(page-1)*pageSize, page*pageSize-1]`; when either option is absent,
no `.range` call is issued at all. -/
theorem claim_C3_pagination_range :
    (∀ (t c : String) (fs : List (String × Option Value)) (o : QueryOptions)
        (p s : Int),
      o.page = some p → o.pageSize = some s → 0 < p → 0 < s →
      rangeSteps (selectQuery t c fs o) = [((p - 1) * s, p * s - 1)]) ∧
    (∀ (t c : String) (fn : Option FilterNode) (o : QueryOptions)
        (p s : Int) (q' : Query),
      o.page = some p → o.pageSize = some s → 0 < p → 0 < s →
      selectWithFilterQuery t c fn o = .ok q' →
      rangeSteps q' = [((p - 1) * s, p * s - 1)]) ∧
    (∀ (vd : ViewDefinition) (fs : List (String × Option Value))
        (o : QueryOptions) (p s : Int) (q' : Query),
      o.page = some p → o.pageSize = some s → 0 < p → 0 < s →
      executeViewQuery vd fs o = .ok q' →
      rangeSteps q' = [((p - 1) * s, p * s - 1)]) ∧
    (∀ (t c : String) (fs : List (String × Option Value)) (o : QueryOptions),
      o.page = none ∨ o.pageSize = none →
      rangeSteps (selectQuery t c fs o) = []) ∧
    (∀ (t c : String) (fn : Option FilterNode) (o : QueryOptions) (q' : Query),
      o.page = none ∨ o.pageSize = none →
      selectWithFilterQuery t c fn o = .ok q' → rangeSteps q' = []) ∧
    (∀ (vd : ViewDefinition) (fs : List (String × Option Value))
        (o : QueryOptions) (q' : Query),
      o.page = none ∨ o.pageSize = none →
      executeViewQuery vd fs o = .ok q' → rangeSteps q' = []) := by
  refine ⟨?_, ?_, ?_, ?_, ?_, ?_⟩
  · intro t c fs o p s hp hs hp0 hs0
    unfold selectQuery
    rw [composed_rangeSteps_pos _ hp hs hp0 hs0, selectQuery_inner_rangeSteps]
    rfl
  · intro t c fn o p s q' hp hs hp0 hs0 h
    unfold selectWithFilterQuery at h
    split at h
    · rename_i q2 happ
      injection h with h2
      subst h2
      rw [composed_rangeSteps_pos _ hp hs hp0 hs0, applyFilter_rangeSteps happ]
      rfl
    · exact Except.noConfusion h
  · intro vd fs o p s q' hp hs hp0 hs0 h
    unfold executeViewQuery at h
    split at h
    · exact Except.noConfusion h
    · split at h
      · rename_i joined hjoins
        injection h with h2
        subst h2
        rw [composed_rangeSteps_pos _ hp hs hp0 hs0, applyAllowedFilters_spec,
          rangeSteps_append, allowedFilterSteps_rangeSteps,
          applyJoins_rangeSteps _ _ _ hjoins]
        rfl
      · exact Except.noConfusion h
  · intro t c fs o h
    unfold selectQuery
    rw [composed_rangeSteps_absent _ h, selectQuery_inner_rangeSteps]
  · intro t c fn o q' h hx
    unfold selectWithFilterQuery at hx
    split at hx
    · rename_i q2 happ
      injection hx with h2
      subst h2
      rw [composed_rangeSteps_absent _ h, applyFilter_rangeSteps happ]
      rfl
    · exact Except.noConfusion hx
  · intro vd fs o q' h hx
    unfold executeViewQuery at hx
    split at hx
    · exact Except.noConfusion hx
    · split at hx
      · rename_i joined hjoins
        injection hx with h2
        subst h2
        rw [composed_rangeSteps_absent _ h, applyAllowedFilters_spec,
          rangeSteps_append, allowedFilterSteps_rangeSteps,
          applyJoins_rangeSteps _ _ _ hjoins]
        rfl
      · exact Except.noConfusion hx

/-- Witness for C3: the spec's scenario `page = 2, pageSize = 10` yields
exactly one row range, `[(2-1)*10, 2*10-1]`, that is `[10, 19]`. -/
theorem claim_C3_witness :
    rangeSteps (selectQuery "tasks" "*" [] ⟨some 2, some 10, none, none⟩) =
      [((2 - 1) * 10, 2 * 10 - 1)] :=
  claim_C3_pagination_range.1 "tasks" "*" [] ⟨some 2, some 10, none, none⟩
    2 10 rfl rfl (by decide) (by decide)

/-- Counterexample to claim C2 as stated: in the spec's own scenario —
`allowed_filters = ["tasks.status"]` with caller filters
`{status: "done", secret: "x"}` — the equality condition on `status` is
NOT applied: the allowlist check is exact string membership of the key,
and the key `status` is not literally the string `tasks.status`, so
both entries are dropped and the built query contains no `.eq` call at
all. -/
theorem claim_C2_counterexample :
    executeViewQuery
      ⟨[⟨⟨"tasks", "id"⟩, "left", ⟨"users", "task_id"⟩⟩],
        some ["tasks.status"], true⟩
      [("status", some (.vstr "done")), ("secret", some (.vstr "x"))]
      ⟨none, none, none, none⟩ =
      .ok [.fromTable "tasks", .selectStep none,
           .selectStep (some "*, users(*)"), .onStep "tasks.id=users.task_id"] := rfl

/-- Claim C2 as amended: in every successful view execution the applied
equality conditions are exactly the caller filter entries whose key is
literally present in `allowed_filters` and whose value is neither
`undefined` nor `null`, in order; all other entries are dropped
silently, never with an error.  In the spec's scenario the allowlist
entry `tasks.status` does not literally match the caller key `status`,
so both caller entries are dropped and no equality condition is
applied. -/
theorem claim_C2_amended_allowlist :
    (∀ (vd : ViewDefinition) (fs : List (String × Option Value))
        (o : QueryOptions) (q' : Query),
      executeViewQuery vd fs o = .ok q' →
      eqSteps q' = allowedFilterSteps (vd.allowed_filters.getD []) fs) ∧
    allowedFilterSteps ["tasks.status"]
      [("status", some (.vstr "done")), ("secret", some (.vstr "x"))] = [] := by
  constructor
  · intro vd fs o q' h
    unfold executeViewQuery at h
    split at h
    · exact Except.noConfusion h
    · split at h
      · rename_i joined hjoins
        injection h with h2
        subst h2
        rw [applyOrdering_eqSteps, applyPagination_eqSteps,
          applyAllowedFilters_spec, eqSteps_append,
          applyJoins_eqSteps _ _ _ hjoins, allowedFilterSteps_eqSteps]
        rfl
      · exact Except.noConfusion h
  · rfl

/-- Witness for the amended C2: with the allowlist entry `status`
(matching the caller key exactly), the `status = "done"` equality is
applied and the non-allowlisted `secret` entry is dropped. -/
theorem claim_C2_witness :
    eqSteps [QStep.fromTable "tasks", QStep.selectStep none,
        QStep.selectStep (some "*, users(*)"),
        QStep.onStep "tasks.id=users.task_id",
        QStep.eq "status" (.vstr "done")] =
      allowedFilterSteps ["status"]
        [("status", some (.vstr "done")), ("secret", some (.vstr "x"))] :=
  claim_C2_amended_allowlist.1
    ⟨[⟨⟨"tasks", "id"⟩, "left", ⟨"users", "task_id"⟩⟩], some ["status"], true⟩
    [("status", some (.vstr "done")), ("secret", some (.vstr "x"))]
    ⟨none, none, none, none⟩ _ rfl

/-- Claim C10: a caller filter entry whose value is `undefined` (`none`)
or `null` contributes no equality condition in a view execution — even
when its key is in `allowed_filters` (the quantification over the view
definition includes allowlists containing the key) — and the same
skipping happens in the repository facade's flat equality maps. -/
theorem claim_C10_null_filter_values_skipped :
    ∀ (vd : ViewDefinition) (pre post : List (String × Option Value))
      (key : String) (v : Option Value) (o : QueryOptions),
      v = none ∨ v = some .vnull →
      executeViewQuery vd (pre ++ (key, v) :: post) o =
          executeViewQuery vd (pre ++ post) o ∧
        ∀ (t c : String),
          selectQuery t c (pre ++ (key, v) :: post) o =
            selectQuery t c (pre ++ post) o := by
  intro vd pre post key v o hv
  constructor
  · apply executeViewQuery_filters_congr
    rw [show (key, v) :: post = [(key, v)] ++ post from rfl,
      allowedFilterSteps_append, allowedFilterSteps_append,
      allowedFilterSteps_append,
      allowedFilterSteps_cons_null _ key v [] hv]
    rfl
  · intro t c
    apply selectQuery_filters_congr
    rw [show (key, v) :: post = [(key, v)] ++ post from rfl,
      equalityFilterSteps_append, equalityFilterSteps_append,
      equalityFilterSteps_append,
      equalityFilterSteps_cons_null key v [] hv]
    rfl

/-- Witness for C10: a `null`-valued `status` entry is skipped even
though `status` is in the view's allowlist, in both the view engine and
the flat select. -/
theorem claim_C10_witness :
    executeViewQuery
        ⟨[⟨⟨"tasks", "id"⟩, "left", ⟨"users", "task_id"⟩⟩], some ["status"], true⟩
        [("status", some .vnull)] ⟨none, none, none, none⟩ =
        executeViewQuery
          ⟨[⟨⟨"tasks", "id"⟩, "left", ⟨"users", "task_id"⟩⟩], some ["status"], true⟩
          [] ⟨none, none, none, none⟩ ∧
      ∀ (t c : String),
        selectQuery t c [("status", some .vnull)] ⟨none, none, none, none⟩ =
          selectQuery t c [] ⟨none, none, none, none⟩ :=
  claim_C10_null_filter_values_skipped
    ⟨[⟨⟨"tasks", "id"⟩, "left", ⟨"users", "task_id"⟩⟩], some ["status"], true⟩
    [] [] "status" (some .vnull) ⟨none, none, none, none⟩ (Or.inr rfl)

end SupabaseJs
